import Mathlib

/-!
Verification of the Queue abstraction of the efebia be-libs monorepo:
the abstract polling core (packages/queue/src/queue.ts), the SQS backends
(sqs-queue-v2 / sqs-queue-v3, identical processing logic), and the
in-memory backend (MemoryQueue).

JavaScript runtime values appearing in message bodies are modelled by the
inductive `Json`; `JSON.parse` is an external platform primitive and is
passed as an explicit function parameter, as are the transport client and
the user callback.  Side effects (delete calls, callback invocations,
logger calls, error-hook invocations, sleeps) are reified as trace events,
and thrown exceptions as an `Option JsError` component of each result.
-/

/-- Model of a JavaScript runtime value as far as the queue code observes it:
JSON-parseable values plus `Date` objects (attached by `send`). -/
inductive Json where
  | obj (fields : List (String × Json))
  | arr (elems : List Json)
  | str (s : String)
  | num (n : Int)
  | bool (b : Bool)
  | null
  | date (ms : Nat)

/-- Association-list fields of a JavaScript object (insertion ordered,
keys unique as produced by object literals and JSON.parse). -/
abbrev Fields := List (String × Json)

/-- A thrown JavaScript value: `new Error(msg)`, a `TypeError` raised by the
runtime, or an opaque value thrown by external code (callback, client). -/
inductive JsError where
  | error (msg : String)
  | typeError (msg : String)
  | external (tag : String)

/-- Outcome of invoking the user callback with `state = \x7b del: true \x7d`:
either it returns normally leaving a final value of `state.del`, or it
throws. -/
inductive CbOut where
  | ok (del : Bool)
  | thrown (e : JsError)

/-- The user callback `(name, params, state) => ...` as the queue observes
it in one `processMessage` run: a function of the `name` and `params`
extracted from the parsed body (either may be `undefined`, i.e. `none`)
and of the initial `state.del`, yielding the final `state.del` or a thrown
error. -/
abbrev Cb := Option Json → Option Json → Bool → CbOut

/-- Observable side effects of one `processMessage` call. -/
inductive Effect where
  | log (msg : String)
  | del (handle : String)
  | cbCall (name : Option Json) (params : Option Json)

/-- A received SQS message: optional receipt handle, optional string body
(`AWS.SQS.Message` restricted to the two fields the code reads). -/
structure SqsMessage where
  ReceiptHandle : Option String
  Body : Option String

/-- JavaScript falsiness of an optional string: `undefined` or `""`. -/
def isFalsy : Option String → Bool
  | none => true
  | some s => s.isEmpty

/-- `Object.keys(v).length` on a parsed JSON value: field count for
objects, index count for arrays and strings, `0` for other primitives,
and a `TypeError` for `null`. -/
def jsKeysLen : Json → Except JsError Nat
  | .obj flds => .ok flds.length
  | .arr l => .ok l.length
  | .str s => .ok s.length
  | .num _ => .ok 0
  | .bool _ => .ok 0
  | .date _ => .ok 0
  | .null => .error (.typeError "Cannot convert undefined or null to object")

/-- JavaScript property access `v.k` on a parsed value (`undefined`,
i.e. `none`, when absent or when `v` is not an object). -/
def jsonGet : Json → String → Option Json
  | .obj flds, k => (flds.find? (fun p => p.1 = k)).map (fun p => p.2)
  | _, _ => none

/-- The package name used in the error strings of the v2 backend; the v3
backend is byte-identical logic with `"@efebia/sqs-queue-v3"` instead. -/
def packageName : String := "@efebia/sqs-queue-v2"

/-- Shallow embedding of `Queue.processMessage` of the SQS backends
(sqs-queue-v2 and sqs-queue-v3, whose bodies coincide): given the external
`JSON.parse` primitive `parse`, an optional callback and a received
message, it returns the ordered list of performed effects and the thrown
error, if any.  Mirrors the source control flow: missing/empty handle →
log and throw NO_RECEIPT_HANDLE; missing/empty body → log, delete, throw
EMPTY_BODY; parse failure propagates; parsed value with zero keys → log,
delete, return; otherwise destructure name/params, return if no callback,
else invoke the callback with `state.del = true` and delete afterwards
iff the final `state.del` is true. -/
def processMessage (parse : String → Except JsError Json) (cb : Option Cb)
    (m : SqsMessage) : List Effect × Option JsError :=
  if isFalsy m.ReceiptHandle then
    ([Effect.log (packageName ++ ": NO_RECEIPT_HANDLE")],
      some (JsError.error (packageName ++ ": NO_RECEIPT_HANDLE")))
  else
    let h := m.ReceiptHandle.getD ""
    if isFalsy m.Body then
      ([Effect.log (packageName ++ ": EMPTY_BODY"), Effect.del h],
        some (JsError.error (packageName ++ ": EMPTY_BODY")))
    else
      match parse (m.Body.getD "") with
      | .error e => ([], some e)
      | .ok parsed =>
        match jsKeysLen parsed with
        | .error e => ([], some e)
        | .ok n =>
          if n = 0 then
            ([Effect.log (packageName ++ ": BODY_NO_KEYS"), Effect.del h], none)
          else
            match cb with
            | none => ([], none)
            | some f =>
              let nm := jsonGet parsed "name"
              let ps := jsonGet parsed "params"
              match f nm ps true with
              | .ok true => ([Effect.cbCall nm ps, Effect.del h], none)
              | .ok false => ([Effect.cbCall nm ps], none)
              | .thrown e => ([Effect.cbCall nm ps], some e)

/-- Whether a `processMessage` run performed a delete call. -/
def delOccurred (r : List Effect × Option JsError) : Bool :=
  r.1.any fun e => match e with | .del _ => true | _ => false

/-- Whether the callback of a `processMessage` run explicitly requested
retention: the run invoked the callback and the callback finished with
`state.del = false`. -/
def requestedRetention (cb : Option Cb) (r : List Effect × Option JsError) : Bool :=
  match cb with
  | none => false
  | some f =>
    r.1.any fun e => match e with
      | .cbCall nm ps => match f nm ps true with | .ok false => true | _ => false
      | _ => false

/-- A sent message of the in-memory queue: the envelope fields the
`MemoryQueue.processMessage` code reads. -/
structure SentMsg where
  name : String
  params : Fields

/-- The user callback as seen by the in-memory queue (name is a genuine
string there, params the stored object). -/
abbrev MemCb := String → Fields → Bool → CbOut

/-- Shallow embedding of `MemoryQueue.processMessage`: returns the message
list after the call (a `shift()` drops the head when `state.del` stays
true) and the thrown error, if any. -/
def memProcessMessage (cb : Option MemCb) (messages : List SentMsg)
    (m : SentMsg) : List SentMsg × Option JsError :=
  match cb with
  | none => (messages, none)
  | some f =>
    match f m.name m.params true with
    | .ok true => (messages.drop 1, none)
    | .ok false => (messages, none)
    | .thrown e => (messages, some e)

-- Concrete instances used by counterexamples and witnesses.

/-- A concrete `JSON.parse` behaviour: every string parses to the object
with fields name "a" and params an empty object (one that has two keys,
so the body is a non-empty object). -/
def cParse : String → Except JsError Json := fun _ =>
  .ok (Json.obj [("name", Json.str "a"), ("params", Json.obj [])])

/-- A concrete received message with a valid handle and a non-empty body. -/
def cMsg : SqsMessage := { ReceiptHandle := some "h", Body := some "b" }

/-- The value held in `options.errorCallback`: the default installed by the
`Queue` constructor logs the error to standard error via `console.error`;
a caller may supply a custom hook instead. -/
inductive ErrorCb where
  | consoleError
  | custom (tag : String)

/-- The resolved `QueueOptions` of a `Queue` instance. -/
structure QueueOptions where
  sleepTimeout : Nat
  errorCallback : ErrorCb

/-- The caller-supplied `Partial<QueueOptions>` (absent keys modelled as
`none`). -/
structure PartialQueueOptions where
  sleepTimeout : Option Nat
  errorCallback : Option ErrorCb

/-- The `Object.assign` in the `Queue` constructor: caller options override
the defaults `sleepTimeout = 5000` and the console-logging error hook. -/
def mkQueueOptions (opts : PartialQueueOptions) : QueueOptions :=
  { sleepTimeout := opts.sleepTimeout.getD 5000,
    errorCallback := opts.errorCallback.getD ErrorCb.consoleError }

/-- The mutable state of a `Queue` instance read by the lifecycle methods. -/
structure QueueState where
  forever : Bool
  options : QueueOptions

/-- The `Queue` constructor: sets `forever = true` and resolves options. -/
def mkQueue (opts : PartialQueueOptions) : QueueState :=
  { forever := true, options := mkQueueOptions opts }

/-- `Queue.stop()`: sets `forever = false`. -/
def QueueState.stop (q : QueueState) : QueueState := { q with forever := false }

/-- `Queue.isRunning()`: reads the `forever` flag. -/
def QueueState.isRunning (q : QueueState) : Bool := q.forever

/-- The flag mutation performed by `Queue.resume(...)` before it re-enters
`start`. -/
def QueueState.resumeFlag (q : QueueState) : QueueState := { q with forever := true }

/-- Outcome of one `await this.readMessages()` in the loop: a batch, the
explicit `undefined` (nothing available / canRead gate closed), or a
thrown transport error. -/
inductive ReadResult (M : Type) where
  | msgs (l : List M)
  | undef
  | err (e : JsError)

/-- The environment behaviour of one loop iteration: what the read returns,
and whether `stop()` gets invoked at some point during this iteration
(from the callback or any other interleaved task). -/
structure Iter (M : Type) where
  read : ReadResult M
  stopDuring : Bool

/-- Observable events of the polling loop, in order: a `readMessages` call,
an effect performed inside `processMessage`, an invocation of the
configured error hook with the caught error, and the fixed error sleep. -/
inductive LoopEvent (M : Type) where
  | readCall
  | procEffect (e : Effect)
  | errCb (cb : ErrorCb) (e : JsError)
  | sleepFor (ms : Nat)

/-- Result of one loop iteration body: fall through to the next `while`
check, or terminate `start` with a thrown error (`canThrow` mode). -/
inductive IterResult where
  | cont
  | threw (e : JsError)

/-- How `start` ends in a fuel-bounded run: the `while` condition saw
`forever = false` and the function returned, an error was rethrown under
`canThrow`, or the fuel ran out with the loop still going (the real loop
may run forever). -/
inductive LoopOutcome where
  | returned
  | threw (e : JsError)
  | fuelOut

/-- The `for (const message of messages)` body: process messages in batch
order, stopping at the first thrown error (the remaining messages of the
batch are skipped, as the throw leaves the `for` inside the `try`). -/
def procBatch (proc : M → List Effect × Option JsError) :
    List M → List Effect × Option JsError
  | [] => ([], none)
  | m :: rest =>
    match proc m with
    | (effs, some e) => (effs, some e)
    | (effs, none) =>
      let r := procBatch proc rest
      (effs ++ r.1, r.2)

/-- One iteration of the `while (this.forever)` body of `Queue.start`:
read, then either continue on `undefined`, process the batch, and on any
thrown error rethrow it (`canThrow`) or invoke the error hook and sleep
`sleepTimeout` before continuing. -/
def iterate (proc : M → List Effect × Option JsError) (opts : QueueOptions)
    (canThrow : Bool) (it : Iter M) : List (LoopEvent M) × IterResult :=
  match it.read with
  | .err e =>
    if canThrow then ([LoopEvent.readCall], IterResult.threw e)
    else ([LoopEvent.readCall, LoopEvent.errCb opts.errorCallback e,
            LoopEvent.sleepFor opts.sleepTimeout], IterResult.cont)
  | .undef => ([LoopEvent.readCall], IterResult.cont)
  | .msgs l =>
    let r := procBatch proc l
    let evs := LoopEvent.readCall (M := M) :: r.1.map LoopEvent.procEffect
    match r.2 with
    | none => (evs, IterResult.cont)
    | some e =>
      if canThrow then (evs, IterResult.threw e)
      else (evs ++ [LoopEvent.errCb opts.errorCallback e,
              LoopEvent.sleepFor opts.sleepTimeout], IterResult.cont)

/-- The error, if any, that iteration `it` raises inside the `try` block
(from `readMessages` or from some `processMessage` of the batch). -/
def iterErr (proc : M → List Effect × Option JsError) (it : Iter M) :
    Option JsError :=
  match it.read with
  | .err e => some e
  | .undef => none
  | .msgs l => (procBatch proc l).2

/-- The events an iteration emits before its error handling: the read call
and the effects of the processed prefix of the batch. -/
def iterLead (proc : M → List Effect × Option JsError) (it : Iter M) :
    List (LoopEvent M) :=
  match it.read with
  | .err _ => [LoopEvent.readCall]
  | .undef => [LoopEvent.readCall]
  | .msgs l => LoopEvent.readCall :: (procBatch proc l).1.map LoopEvent.procEffect

/-- Fuel-bounded run of the `while (this.forever)` loop of `Queue.start`,
iteration behaviours supplied by `iters`, starting at iteration index `i`
with the current value of the `forever` flag; `stop()` during iteration
`i` makes the flag false at the next `while` check. -/
def runLoop (proc : M → List Effect × Option JsError) (opts : QueueOptions)
    (canThrow : Bool) (iters : Nat → Iter M) :
    Nat → Nat → Bool → List (LoopEvent M) × LoopOutcome
  | _, _, false => ([], LoopOutcome.returned)
  | 0, _, true => ([], LoopOutcome.fuelOut)
  | fuel + 1, i, true =>
    match iterate proc opts canThrow (iters i) with
    | (evs, IterResult.threw e) => (evs, LoopOutcome.threw e)
    | (evs, IterResult.cont) =>
      let rest := runLoop proc opts canThrow iters fuel (i + 1)
        (!(iters i).stopDuring)
      (evs ++ rest.1, rest.2)

/-- Number of `readMessages` calls recorded in a loop trace. -/
def countReads (evs : List (LoopEvent M)) : Nat :=
  (evs.filter fun e => match e with | .readCall => true | _ => false).length

-- The base queue envelope and `send`.

/-- `Message<TParams>` of the base queue package: a name and a params
object. -/
structure Msg where
  name : String
  params : Fields

/-- Field lookup in a JavaScript object (first matching key). -/
def lookupField (flds : Fields) (k : String) : Option Json :=
  (flds.find? (fun p => p.1 = k)).map (fun p => p.2)

/-- The object-literal update `\x7b ...p, k: v \x7d` on an object with
unique keys (as JavaScript object literals have): an existing key keeps
its position and takes the new value; a fresh key is appended. -/
def setField : Fields → String → Json → Fields
  | [], k, v => [(k, v)]
  | (k2, v2) :: rest, k, v =>
    if k2 = k then (k, v) :: rest else (k2, v2) :: setField rest k v

/-- The `updatedBody` computed by `Queue.send`: the envelope with `params`
spread and `createdAt` set to the current wall-clock date `now`. -/
def sendUpdatedBody (now : Nat) (body : Msg) : Msg :=
  { name := body.name, params := setField body.params "createdAt" (Json.date now) }

/-- Observable effect of `Queue.send`: the (non-awaited) call into the
backend `sendMessage`. -/
inductive SendEffect where
  | sendMessageCall (body : Msg)

/-- Shallow embedding of the base `Queue.send`: builds `updatedBody`,
invokes the backend `sendMessage` without awaiting its outcome (the
returned promise is discarded), and returns `undefined`; no error is ever
thrown to the caller of `send`. -/
def send (backend : Msg → Except JsError Unit) (now : Nat) (body : Msg) :
    List SendEffect × Option JsError :=
  let updatedBody := sendUpdatedBody now body
  let _ := backend updatedBody
  ([SendEffect.sendMessageCall updatedBody], none)

/-- The deletion condition of `processMessage` as the code actually
implements it (used as the amended form of the spec's deletion
invariant): delete iff the message has a receipt handle and either the
body is absent/empty, or the body parses to a value with zero keys, or
the body parses to a value with at least one key, a callback is supplied,
and the callback returns normally with `state.del` still true. -/
def delExpected (parse : String → Except JsError Json) (cb : Option Cb)
    (m : SqsMessage) : Bool :=
  if isFalsy m.ReceiptHandle then false
  else if isFalsy m.Body then true
  else
    match parse (m.Body.getD "") with
    | .error _ => false
    | .ok j =>
      match jsKeysLen j with
      | .error _ => false
      | .ok n =>
        if n = 0 then true
        else
          match cb with
          | none => false
          | some f =>
            match f (jsonGet j "name") (jsonGet j "params") true with
            | .ok b => b
            | .thrown _ => false

/-- The deletion (head removal) condition of `MemoryQueue.processMessage`:
a callback is supplied and returns normally with `state.del` still true. -/
def memDelExpected (cb : Option MemCb) (m : SentMsg) : Bool :=
  match cb with
  | none => false
  | some f =>
    match f m.name m.params true with
    | .ok true => true
    | _ => false

-- Concrete callbacks used by witnesses.

/-- A callback that requests retention: sets `state.del = false`. -/
def cbRetain : Cb := fun _ _ _ => CbOut.ok false

/-- A callback that acknowledges: leaves `state.del = true`. -/
def cbAck : Cb := fun _ _ _ => CbOut.ok true

/-- A callback that throws. -/
def cbThrow : Cb := fun _ _ _ => CbOut.thrown (JsError.external "boom")

/-- A `JSON.parse` behaviour under which every body parses to the empty
object. -/
def cParseEmptyObj : String → Except JsError Json := fun _ => .ok (Json.obj [])

/-- A received message lacking the receipt handle. -/
def cMsgNoHandle : SqsMessage := { ReceiptHandle := none, Body := some "b" }

/-- A received message with a handle but no body. -/
def cMsgNoBody : SqsMessage := { ReceiptHandle := some "h", Body := none }

/-- C1, as frozen, fails on the code: a message with a valid handle and a
non-empty parsed body handled with no callback supplied is not deleted,
although no callback requested retention — `processMessage` returns
before the delete when `callback` is `undefined`.  The deleted-iff-no-
retention-requested biconditional is therefore false at this input. -/
theorem c1_counterexample :
    ¬ (delOccurred (processMessage cParse none cMsg) = true ↔
        requestedRetention none (processMessage cParse none cMsg) = false) := by
  decide

/-- C1 (amended): a message is deleted iff it has a receipt handle and
either its body is absent/empty or parses to a zero-key value, or its
body parses to a value with at least one key, a callback is supplied, and
the callback returns normally leaving `state.del` true; in every other
case (no handle, parse failure, no callback supplied, callback throwing
or opting out) no delete occurs.  For the in-memory queue the head is
removed iff a callback is supplied and returns normally leaving
`state.del` true. -/
theorem c1_amended_deletion :
    (∀ (parse : String → Except JsError Json) (cb : Option Cb) (m : SqsMessage),
      delOccurred (processMessage parse cb m) = delExpected parse cb m) ∧
    (∀ (cb : Option MemCb) (msgs : List SentMsg) (m : SentMsg),
      (memProcessMessage cb msgs m).1 =
        if memDelExpected cb m then msgs.drop 1 else msgs) := by
  constructor
  · intro parse cb m
    cases hH : isFalsy m.ReceiptHandle with
    | true => simp [processMessage, delExpected, delOccurred, hH]
    | false =>
      cases hB : isFalsy m.Body with
      | true => simp [processMessage, delExpected, delOccurred, hH, hB]
      | false =>
        cases hp : parse (m.Body.getD "") with
        | error e => simp [processMessage, delExpected, delOccurred, hH, hB, hp]
        | ok j =>
          cases hk : jsKeysLen j with
          | error e =>
            simp [processMessage, delExpected, delOccurred, hH, hB, hp, hk]
          | ok n =>
            by_cases hn : n = 0
            · simp [processMessage, delExpected, delOccurred, hH, hB, hp, hk, hn]
            · cases cb with
              | none =>
                simp [processMessage, delExpected, delOccurred, hH, hB, hp, hk, hn]
              | some f =>
                cases hf : f (jsonGet j "name") (jsonGet j "params") true with
                | ok b =>
                  cases b <;>
                    simp [processMessage, delExpected, delOccurred, hH, hB, hp,
                      hk, hn, hf]
                | thrown e =>
                  simp [processMessage, delExpected, delOccurred, hH, hB, hp,
                    hk, hn, hf]
  · intro cb msgs m
    cases cb with
    | none => simp [memProcessMessage, memDelExpected]
    | some f =>
      cases hf : f m.name m.params true with
      | ok b => cases b <;> simp [memProcessMessage, memDelExpected, hf]
      | thrown e => simp [memProcessMessage, memDelExpected, hf]

/-- C2: for a received message with a valid handle and a body parsing to a
non-empty object, with a callback supplied: if the callback finishes with
`state.del = false` the run performs no delete call; if it finishes with
`state.del` still true the run performs exactly one delete call, placed
after the callback invocation. -/
theorem c2_state_del_acknowledgment (parse : String → Except JsError Json)
    (f : Cb) (m : SqsMessage) (flds : Fields)
    (h1 : isFalsy m.ReceiptHandle = false)
    (h2 : isFalsy m.Body = false)
    (hp : parse (m.Body.getD "") = .ok (Json.obj flds))
    (hk : flds ≠ []) :
    (f (jsonGet (Json.obj flds) "name") (jsonGet (Json.obj flds) "params") true =
        CbOut.ok false →
      processMessage parse (some f) m =
        ([Effect.cbCall (jsonGet (Json.obj flds) "name")
            (jsonGet (Json.obj flds) "params")], none)) ∧
    (f (jsonGet (Json.obj flds) "name") (jsonGet (Json.obj flds) "params") true =
        CbOut.ok true →
      processMessage parse (some f) m =
        ([Effect.cbCall (jsonGet (Json.obj flds) "name")
            (jsonGet (Json.obj flds) "params"),
          Effect.del (m.ReceiptHandle.getD "")], none)) := by
  have hk2 : flds.length ≠ 0 := fun hh => hk (List.length_eq_zero.mp hh)
  constructor
  · intro hf
    simp [processMessage, h1, h2, hp, jsKeysLen, hk2, hf]
  · intro hf
    simp [processMessage, h1, h2, hp, jsKeysLen, hk2, hf]

theorem c2_witness :
    cParse (cMsg.Body.getD "") =
      .ok (Json.obj [("name", Json.str "a"), ("params", Json.obj [])]) ∧
    processMessage cParse (some cbRetain) cMsg =
      ([Effect.cbCall
          (jsonGet (Json.obj [("name", Json.str "a"), ("params", Json.obj [])]) "name")
          (jsonGet (Json.obj [("name", Json.str "a"), ("params", Json.obj [])]) "params")],
        none) :=
  ⟨rfl,
    (c2_state_del_acknowledgment cParse cbRetain cMsg
      [("name", Json.str "a"), ("params", Json.obj [])] rfl rfl rfl
      (List.cons_ne_nil _ _)).1 rfl⟩

/-- C3: when the callback throws, `processMessage` performs no delete call
and the exception propagates out of it; fed into one loop iteration
reading that message, the loop rethrows it under `canThrow = true` and
passes it to the configured error hook (followed by the error sleep)
under `canThrow = false` — it is never swallowed. -/
theorem c3_callback_throw_propagates (parse : String → Except JsError Json)
    (f : Cb) (m : SqsMessage) (j : Json) (n : Nat) (e : JsError)
    (h1 : isFalsy m.ReceiptHandle = false)
    (h2 : isFalsy m.Body = false)
    (hp : parse (m.Body.getD "") = .ok j)
    (hk : jsKeysLen j = .ok (n + 1))
    (hf : f (jsonGet j "name") (jsonGet j "params") true = CbOut.thrown e) :
    processMessage parse (some f) m =
      ([Effect.cbCall (jsonGet j "name") (jsonGet j "params")], some e) ∧
    (∀ (opts : QueueOptions) (stopD : Bool),
      iterate (processMessage parse (some f)) opts true
          { read := ReadResult.msgs [m], stopDuring := stopD } =
        ([LoopEvent.readCall,
          LoopEvent.procEffect (Effect.cbCall (jsonGet j "name") (jsonGet j "params"))],
          IterResult.threw e)) ∧
    (∀ (opts : QueueOptions) (stopD : Bool),
      iterate (processMessage parse (some f)) opts false
          { read := ReadResult.msgs [m], stopDuring := stopD } =
        ([LoopEvent.readCall,
          LoopEvent.procEffect (Effect.cbCall (jsonGet j "name") (jsonGet j "params")),
          LoopEvent.errCb opts.errorCallback e,
          LoopEvent.sleepFor opts.sleepTimeout], IterResult.cont)) := by
  have hpm : processMessage parse (some f) m =
      ([Effect.cbCall (jsonGet j "name") (jsonGet j "params")], some e) := by
    simp [processMessage, h1, h2, hp, hk, hf]
  refine ⟨hpm, ?_, ?_⟩
  · intro opts stopD
    simp [iterate, procBatch, hpm]
  · intro opts stopD
    simp [iterate, procBatch, hpm]

theorem c3_witness :
    cbThrow (jsonGet (Json.obj [("name", Json.str "a"), ("params", Json.obj [])]) "name")
        (jsonGet (Json.obj [("name", Json.str "a"), ("params", Json.obj [])]) "params")
        true = CbOut.thrown (JsError.external "boom") ∧
    processMessage cParse (some cbThrow) cMsg =
      ([Effect.cbCall
          (jsonGet (Json.obj [("name", Json.str "a"), ("params", Json.obj [])]) "name")
          (jsonGet (Json.obj [("name", Json.str "a"), ("params", Json.obj [])]) "params")],
        some (JsError.external "boom")) :=
  ⟨rfl,
    (c3_callback_throw_propagates cParse cbThrow cMsg
      (Json.obj [("name", Json.str "a"), ("params", Json.obj [])]) 1
      (JsError.external "boom") rfl rfl rfl rfl rfl).1⟩

/-- C4: a received message with a valid handle whose body parses to an
object with zero keys is logged and deleted, the callback is never
invoked, and `processMessage` returns normally with no error. -/
theorem c4_zero_key_body_deleted (parse : String → Except JsError Json)
    (cb : Option Cb) (m : SqsMessage)
    (h1 : isFalsy m.ReceiptHandle = false)
    (h2 : isFalsy m.Body = false)
    (hp : parse (m.Body.getD "") = .ok (Json.obj [])) :
    processMessage parse cb m =
      ([Effect.log (packageName ++ ": BODY_NO_KEYS"),
        Effect.del (m.ReceiptHandle.getD "")], none) := by
  simp [processMessage, h1, h2, hp, jsKeysLen]

theorem c4_witness :
    cParseEmptyObj (cMsg.Body.getD "") = .ok (Json.obj []) ∧
    processMessage cParseEmptyObj (some cbAck) cMsg =
      ([Effect.log (packageName ++ ": BODY_NO_KEYS"), Effect.del "h"], none) :=
  ⟨rfl, c4_zero_key_body_deleted cParseEmptyObj (some cbAck) cMsg rfl rfl rfl⟩

/-- C5: a received message with a receipt handle but an absent or empty
body is logged and deleted, and `processMessage` then throws the
EMPTY_BODY error; the callback is never invoked. -/
theorem c5_empty_body_deleted_and_raised (parse : String → Except JsError Json)
    (cb : Option Cb) (m : SqsMessage)
    (h1 : isFalsy m.ReceiptHandle = false)
    (h2 : isFalsy m.Body = true) :
    processMessage parse cb m =
      ([Effect.log (packageName ++ ": EMPTY_BODY"),
        Effect.del (m.ReceiptHandle.getD "")],
        some (JsError.error (packageName ++ ": EMPTY_BODY"))) := by
  simp [processMessage, h1, h2]

theorem c5_witness :
    isFalsy cMsgNoBody.Body = true ∧
    processMessage cParse (some cbAck) cMsgNoBody =
      ([Effect.log (packageName ++ ": EMPTY_BODY"), Effect.del "h"],
        some (JsError.error (packageName ++ ": EMPTY_BODY"))) :=
  ⟨rfl, c5_empty_body_deleted_and_raised cParse (some cbAck) cMsgNoBody rfl rfl⟩

/-- C6: a received message lacking the receipt handle makes
`processMessage` throw the NO_RECEIPT_HANDLE error after logging it;
no delete call and no callback invocation occur. -/
theorem c6_no_receipt_handle (parse : String → Except JsError Json)
    (cb : Option Cb) (m : SqsMessage)
    (h1 : isFalsy m.ReceiptHandle = true) :
    processMessage parse cb m =
      ([Effect.log (packageName ++ ": NO_RECEIPT_HANDLE")],
        some (JsError.error (packageName ++ ": NO_RECEIPT_HANDLE"))) := by
  simp [processMessage, h1]

theorem c6_witness :
    isFalsy cMsgNoHandle.ReceiptHandle = true ∧
    processMessage cParse (some cbAck) cMsgNoHandle =
      ([Effect.log (packageName ++ ": NO_RECEIPT_HANDLE")],
        some (JsError.error (packageName ++ ": NO_RECEIPT_HANDLE"))) :=
  ⟨rfl, c6_no_receipt_handle cParse (some cbAck) cMsgNoHandle rfl⟩

-- Helper lemmas about the loop embedding.

theorem runLoop_not_forever (proc : M → List Effect × Option JsError)
    (opts : QueueOptions) (canThrow : Bool) (iters : Nat → Iter M)
    (fuel i : Nat) :
    runLoop proc opts canThrow iters fuel i false = ([], LoopOutcome.returned) := by
  cases fuel <;> rfl

theorem countReads_append (a b : List (LoopEvent M)) :
    countReads (a ++ b) = countReads a + countReads b := by
  simp [countReads, List.filter_append]

theorem countReads_map_procEffect (l : List Effect) :
    countReads (M := M) (l.map LoopEvent.procEffect) = 0 := by
  induction l with
  | nil => rfl
  | cons x xs ih => simp [countReads, List.filter]

theorem countReads_iterate (proc : M → List Effect × Option JsError)
    (opts : QueueOptions) (canThrow : Bool) (it : Iter M) :
    countReads (iterate proc opts canThrow it).1 = 1 := by
  unfold iterate
  cases hr : it.read with
  | err e => cases canThrow <;> simp [countReads, List.filter]
  | undef => simp [countReads, List.filter]
  | msgs l =>
    cases hb : (procBatch proc l).2 with
    | none => simp [countReads, List.filter, hb]
    | some e =>
      cases canThrow <;> simp [countReads, List.filter, hb, List.filter_append]

/-- C7: the constructor defaults resolve to a 5000 ms sleep timeout and the
console-logging error hook; an iteration that raises an error (from
`readMessages` or from some `processMessage` of the batch) makes `start`
rethrow it and terminate when `canThrow = true`, while with
`canThrow = false` the iteration invokes the configured error hook with
the error, sleeps the configured timeout, and the loop continues with the
next iteration. -/
theorem c7_loop_error_policy :
    (mkQueueOptions { sleepTimeout := none, errorCallback := none } =
      { sleepTimeout := 5000, errorCallback := ErrorCb.consoleError }) ∧
    (∀ (M : Type) (proc : M → List Effect × Option JsError) (opts : QueueOptions)
        (it : Iter M) (e : JsError), iterErr proc it = some e →
      iterate proc opts true it = (iterLead proc it, IterResult.threw e) ∧
      iterate proc opts false it =
        (iterLead proc it ++ [LoopEvent.errCb opts.errorCallback e,
          LoopEvent.sleepFor opts.sleepTimeout], IterResult.cont)) ∧
    (∀ (M : Type) (proc : M → List Effect × Option JsError) (opts : QueueOptions)
        (iters : Nat → Iter M) (fuel i : Nat) (e : JsError),
      iterErr proc (iters i) = some e →
      runLoop proc opts true iters (fuel + 1) i true =
        (iterLead proc (iters i), LoopOutcome.threw e) ∧
      runLoop proc opts false iters (fuel + 1) i true =
        ((iterate proc opts false (iters i)).1 ++
            (runLoop proc opts false iters fuel (i + 1)
              (!(iters i).stopDuring)).1,
          (runLoop proc opts false iters fuel (i + 1)
            (!(iters i).stopDuring)).2)) := by
  have hiter : ∀ (M : Type) (proc : M → List Effect × Option JsError)
      (opts : QueueOptions) (it : Iter M) (e : JsError), iterErr proc it = some e →
      iterate proc opts true it = (iterLead proc it, IterResult.threw e) ∧
      iterate proc opts false it =
        (iterLead proc it ++ [LoopEvent.errCb opts.errorCallback e,
          LoopEvent.sleepFor opts.sleepTimeout], IterResult.cont) := by
    intro M proc opts it e he
    cases hr : it.read with
    | err e2 =>
      simp only [iterErr, hr, Option.some.injEq] at he
      subst he
      simp [iterate, iterLead, hr]
    | undef => simp [iterErr, hr] at he
    | msgs l =>
      simp only [iterErr, hr] at he
      simp [iterate, iterLead, hr, he]
  refine ⟨rfl, hiter, ?_⟩
  intro M proc opts iters fuel i e he
  constructor
  · simp only [runLoop, (hiter M proc opts (iters i) e he).1]
  · simp only [runLoop, (hiter M proc opts (iters i) e he).2]

/-- Error value used by loop witnesses. -/
def wErr : JsError := JsError.external "NetworkError"

/-- A one-message batch whose processing throws (over a trivial message
type), used by loop witnesses. -/
def wProcU : Unit → List Effect × Option JsError :=
  fun _ => ([], some (JsError.external "NetworkError"))

/-- Iteration behaviour reading that batch, no stop request. -/
def wIterU : Iter Unit := { read := ReadResult.msgs [()], stopDuring := false }

/-- Iteration behaviours reading nothing, with a stop request during every
iteration. -/
def wItersStop : Nat → Iter Unit :=
  fun _ => { read := ReadResult.undef, stopDuring := true }

/-- Resolved default options, used by loop witnesses. -/
def wOpts : QueueOptions :=
  mkQueueOptions { sleepTimeout := none, errorCallback := none }

theorem c7_witness :
    iterErr wProcU wIterU = some wErr ∧
    iterate wProcU wOpts true wIterU = (iterLead wProcU wIterU, IterResult.threw wErr) ∧
    iterate wProcU wOpts false wIterU =
      (iterLead wProcU wIterU ++ [LoopEvent.errCb wOpts.errorCallback wErr,
        LoopEvent.sleepFor wOpts.sleepTimeout], IterResult.cont) :=
  ⟨rfl, c7_loop_error_policy.2.1 Unit wProcU wOpts wIterU wErr rfl⟩

/-- C8: `stop()` immediately makes `isRunning()` return `false`; a loop
whose `forever` flag is false performs no events at all and returns; and
when `stop()` is invoked during an iteration, the whole remaining run
performs exactly the one `readMessages` call of that in-flight iteration
and no further ones. -/
theorem c8_stop_semantics :
    (∀ q : QueueState, q.stop.isRunning = false) ∧
    (∀ (M : Type) (proc : M → List Effect × Option JsError) (opts : QueueOptions)
        (canThrow : Bool) (iters : Nat → Iter M) (fuel i : Nat),
      runLoop proc opts canThrow iters fuel i false = ([], LoopOutcome.returned)) ∧
    (∀ (M : Type) (proc : M → List Effect × Option JsError) (opts : QueueOptions)
        (canThrow : Bool) (iters : Nat → Iter M) (fuel i : Nat),
      (iters i).stopDuring = true →
      countReads (runLoop proc opts canThrow iters (fuel + 1) i true).1 = 1) := by
  refine ⟨fun q => rfl, fun M proc opts ct iters fuel i =>
    runLoop_not_forever proc opts ct iters fuel i, ?_⟩
  intro M proc opts ct iters fuel i hstop
  have hevs := countReads_iterate proc opts ct (iters i)
  rcases hit : iterate proc opts ct (iters i) with ⟨evs, r⟩
  rw [hit] at hevs
  cases r with
  | threw e =>
    simp only [runLoop, hit]
    exact hevs
  | cont =>
    simp only [runLoop, hit, hstop, Bool.not_true, runLoop_not_forever]
    simpa [countReads_append, countReads] using hevs

theorem c8_witness :
    (wItersStop 0).stopDuring = true ∧
    countReads (runLoop wProcU wOpts false wItersStop 1 0 true).1 = 1 :=
  ⟨rfl, c8_stop_semantics.2.2 Unit wProcU wOpts false wItersStop 0 0 rfl⟩

-- Helper lemmas about field update for `send`.

theorem lookupField_setField_self (flds : Fields) (k : String) (v : Json) :
    lookupField (setField flds k v) k = some v := by
  induction flds with
  | nil => simp [setField, lookupField, List.find?]
  | cons x xs ih =>
    rcases x with ⟨k2, v2⟩
    by_cases hx : k2 = k
    · simp [setField, lookupField, List.find?, hx]
    · simpa [setField, lookupField, List.find?, hx] using ih

theorem lookupField_setField_ne (flds : Fields) (k k2 : String) (v : Json)
    (hne : k2 ≠ k) :
    lookupField (setField flds k v) k2 = lookupField flds k2 := by
  induction flds with
  | nil => simp [setField, lookupField, List.find?, Ne.symm hne]
  | cons x xs ih =>
    rcases x with ⟨k3, v3⟩
    by_cases hx : k3 = k
    · have hx2 : ¬ k3 = k2 := fun hh => hne (by rw [← hh, hx])
      simp [setField, lookupField, List.find?, hx, Ne.symm hne, hx2]
    · by_cases hx2 : k3 = k2
      · simp [setField, lookupField, List.find?, hx, hx2, hne]
      · simpa [setField, lookupField, List.find?, hx, hx2] using ih

/-- C9: the body handed to the backend `sendMessage` by `send` is the
original envelope with the same `name`, with `params.createdAt` set to
the wall-clock date read during the `send` call, and with every other
params field unchanged. -/
theorem c9_send_attaches_createdAt (backend : Msg → Except JsError Unit)
    (now : Nat) (body : Msg) :
    (send backend now body).1 =
      [SendEffect.sendMessageCall (sendUpdatedBody now body)] ∧
    (sendUpdatedBody now body).name = body.name ∧
    lookupField (sendUpdatedBody now body).params "createdAt" =
      some (Json.date now) ∧
    (∀ k : String, k ≠ "createdAt" →
      lookupField (sendUpdatedBody now body).params k =
        lookupField body.params k) := by
  refine ⟨rfl, rfl, ?_, ?_⟩
  · exact lookupField_setField_self body.params "createdAt" (Json.date now)
  · intro k hk
    exact lookupField_setField_ne body.params "createdAt" k (Json.date now) hk

/-- Envelope used by the `send` witnesses. -/
def wBody : Msg := { name := "a", params := [("x", Json.num 1)] }

theorem c9_witness :
    ("x" : String) ≠ "createdAt" ∧
    lookupField (sendUpdatedBody 42 wBody).params "createdAt" =
      some (Json.date 42) ∧
    lookupField (sendUpdatedBody 42 wBody).params "x" = lookupField wBody.params "x" :=
  ⟨by decide,
    (c9_send_attaches_createdAt (fun _ => .ok ()) 42 wBody).2.2.1,
    (c9_send_attaches_createdAt (fun _ => .ok ()) 42 wBody).2.2.2 "x" (by decide)⟩

/-- C10: the base `Queue.send` performs the backend `sendMessage` call
without awaiting it and returns (undefined) with no error thrown to its
caller; in particular its entire observable result is independent of the
backend outcome, so a rejection of `sendMessage` never propagates to the
caller of `send`. -/
theorem c10_send_not_awaited :
    ∀ (backend : Msg → Except JsError Unit) (now : Nat) (body : Msg),
      send backend now body =
        ([SendEffect.sendMessageCall (sendUpdatedBody now body)], none) ∧
      (∀ backend2 : Msg → Except JsError Unit,
        send backend now body = send backend2 now body) :=
  fun _ _ _ => ⟨rfl, fun _ => rfl⟩
